import Mathlib

/-!
Shallow embedding of the order-placement core of the inventory & order
system (src/models.py and src/main.py).

The relational store is modelled as a `State` of row lists, one list per
table, together with the auto-increment counters for the `Order` and
`OrderItem` primary keys.  `session.get(Model, id)` becomes a `find?` on
the corresponding list; a committed row update becomes a pure update of
the list.  Prices are modelled as rationals (the code only copies and
compares them, it never does float arithmetic on them inside the core).

`create_order` (src/main.py lines 183-247) is embedded step for step:
customer lookup, empty-list check, per-item validation pass (quantity,
product lookup, stock comparison, each against the untouched store),
then a first commit creating the Order row, then the mutation pass
(stock decrement plus OrderItem row per item) followed by the second
commit, and finally the re-select of the order's items for the response.

The underlying store may fail at either of the two `session.commit()`
calls; the `fault` argument injects such a failure (`some 1`: the first
commit fails, nothing is persisted; `some 2`: the second commit fails,
the changes of the second transaction are rolled back but the first
commit's Order row remains).  `fault = none` is the failure-free run.
-/

namespace AssetSystem

/-- Product row (src/models.py, `Product`). -/
structure Product where
  id : Int
  name : String
  sku : String
  price : ℚ
  current_stock : Int
  reorder_level : Int
  deriving DecidableEq, Repr

/-- Customer row (src/models.py, `Customer`). -/
structure Customer where
  id : Int
  name : String
  email : String
  address : Option String
  deriving DecidableEq, Repr

/-- Order row (src/models.py, `Order`); `created_at` is the tick of the
clock at creation time. -/
structure Order where
  id : Int
  customer_id : Int
  status : String
  created_at : Nat
  deriving DecidableEq, Repr

/-- OrderItem row (src/models.py, `OrderItem`). -/
structure OrderItem where
  id : Int
  order_id : Int
  product_id : Int
  quantity : Int
  unit_price : ℚ
  deriving DecidableEq, Repr

/-- One requested line item (src/models.py, `OrderItemCreate`). -/
structure OrderItemCreate where
  product_id : Int
  quantity : Int
  deriving DecidableEq, Repr

/-- An order request (src/models.py, `OrderCreate`). -/
structure OrderCreate where
  customer_id : Int
  items : List OrderItemCreate
  deriving DecidableEq, Repr

/-- Payload for creating or updating a product
(src/models.py, `ProductCreate`). -/
structure ProductCreate where
  name : String
  sku : String
  price : ℚ
  current_stock : Int
  reorder_level : Int
  deriving DecidableEq, Repr

/-- Response line item (src/models.py, `OrderItemRead`). -/
structure OrderItemRead where
  id : Int
  order_id : Int
  product_id : Int
  quantity : Int
  unit_price : ℚ
  deriving DecidableEq, Repr

/-- Response view of an order (src/models.py, `OrderRead`). -/
structure OrderRead where
  id : Int
  customer_id : Int
  status : String
  created_at : Nat
  items : List OrderItemRead
  deriving DecidableEq, Repr

/-- The database state: one row list per table, plus the auto-increment
counters for the two tables whose generated keys the code reads back. -/
structure State where
  products : List Product
  customers : List Customer
  orders : List Order
  orderItems : List OrderItem
  nextOrderId : Int
  nextOrderItemId : Int
  deriving DecidableEq, Repr

/-- The error taxonomy of order placement.  In the code these are
HTTPExceptions; the payload fields carry exactly the data interpolated
into the corresponding detail strings (src/main.py lines 190, 193, 199,
203, 206-209). -/
inductive OrderError where
  | CustomerNotFound
  | EmptyOrder
  | InvalidQuantity
  | ProductNotFound (reference : Int)
  | InsufficientStock (product : Int) (available : Int) (requested : Int)
  | PersistenceFailure
  deriving DecidableEq, Repr

/-- Outcome of an order placement: the state visible to subsequent reads,
plus the response view on success or the error on failure. -/
inductive CreateResult where
  | ok (st : State) (view : OrderRead)
  | err (st : State) (e : OrderError)
  deriving DecidableEq, Repr

/-- The state visible to subsequent reads after a placement attempt. -/
def resultState : CreateResult → State
  | .ok st _ => st
  | .err st _ => st

/-- The error of a placement attempt, if it failed. -/
def resultError : CreateResult → Option OrderError
  | .ok _ _ => none
  | .err _ e => some e

/-- `session.get(Product, pid)`: first row with the given primary key. -/
def getProduct (st : State) (pid : Int) : Option Product :=
  st.products.find? (fun p => p.id == pid)

/-- `session.get(Customer, cid)`. -/
def getCustomer (st : State) (cid : Int) : Option Customer :=
  st.customers.find? (fun c => c.id == cid)

/-- The committed effect of `product.current_stock -= qty` on the product
row with key `pid` (src/main.py line 223). -/
def decrementStock (ps : List Product) (pid : Int) (qty : Int) : List Product :=
  ps.map (fun p => if p.id == pid then { p with current_stock := p.current_stock - qty } else p)

/-- The validation pass of `create_order` (src/main.py lines 196-211):
for each item in caller order, check quantity positivity, resolve the
product, and compare its current stock against the item quantity; no
mutation happens, so every check reads the untouched store.  On success
it returns the `products_to_update` list of (product row, quantity)
pairs in item order. -/
def validateItems (st : State) : List OrderItemCreate → Except OrderError (List (Product × Int))
  | [] => .ok []
  | item :: rest =>
    if item.quantity ≤ 0 then
      .error .InvalidQuantity
    else
      match getProduct st item.product_id with
      | none => .error (.ProductNotFound item.product_id)
      | some product =>
        if product.current_stock < item.quantity then
          .error (.InsufficientStock product.id product.current_stock item.quantity)
        else
          match validateItems st rest with
          | .error e => .error e
          | .ok pairs => .ok ((product, item.quantity) :: pairs)

/-- The mutation pass of `create_order` (src/main.py lines 219-234): for
each validated (product, qty) pair in order, decrement that product's
stock in the store and append an OrderItem row snapshotting the
product's price as `unit_price`.  Returns the updated state and the
created items in creation order. -/
def applyItems : State → Int → List (Product × Int) → State × List OrderItem
  | st, _, [] => (st, [])
  | st, orderId, (product, qty) :: rest =>
    let item : OrderItem :=
      { id := st.nextOrderItemId
        order_id := orderId
        product_id := product.id
        quantity := qty
        unit_price := product.price }
    let st1 : State :=
      { st with
        products := decrementStock st.products product.id qty
        orderItems := st.orderItems ++ [item]
        nextOrderItemId := st.nextOrderItemId + 1 }
    let r := applyItems st1 orderId rest
    (r.1, item :: r.2)

/-- Converting a stored OrderItem row into the response shape
(`OrderItemRead(**item.model_dump())`, src/main.py line 246). -/
def orderItemRead (oi : OrderItem) : OrderItemRead :=
  { id := oi.id
    order_id := oi.order_id
    product_id := oi.product_id
    quantity := oi.quantity
    unit_price := oi.unit_price }

/-- The Order row created at step 3 of `create_order`
(src/main.py line 214): status PENDING, fresh auto-increment key,
`created_at` from the clock. -/
def newOrder (now : Nat) (st : State) (req : OrderCreate) : Order :=
  { id := st.nextOrderId
    customer_id := req.customer_id
    status := "PENDING"
    created_at := now }

/-- The state after the first `session.commit()` of `create_order`
(src/main.py line 216): only the new Order row is persisted. -/
def afterFirstCommit (now : Nat) (st : State) (req : OrderCreate) : State :=
  { st with
    orders := st.orders ++ [newOrder now st req]
    nextOrderId := st.nextOrderId + 1 }

/-- Steps 4 and 5 of `create_order` (src/main.py lines 219-247): apply
the stock decrements and OrderItem insertions on top of the first
commit's state, commit, re-select the order's items, and build the
response view. -/
def commitPhase (now : Nat) (st : State) (req : OrderCreate)
    (pairs : List (Product × Int)) : State × OrderRead :=
  let order := newOrder now st req
  let r := applyItems (afterFirstCommit now st req) order.id pairs
  let items := r.1.orderItems.filter (fun oi => oi.order_id == order.id)
  (r.1,
    { id := order.id
      customer_id := order.customer_id
      status := order.status
      created_at := order.created_at
      items := items.map orderItemRead })

/-- `create_order` (src/main.py lines 183-247).  `now` is the clock value
used for `created_at`; `fault` injects a store failure at the first or
second commit (see the module comment). -/
def create_order (fault : Option Nat) (now : Nat) (st : State) (req : OrderCreate) :
    CreateResult :=
  match getCustomer st req.customer_id with
  | none => .err st .CustomerNotFound
  | some _ =>
    if req.items.length = 0 then
      .err st .EmptyOrder
    else
      match validateItems st req.items with
      | .error e => .err st e
      | .ok pairs =>
        if fault = some 1 then
          .err st .PersistenceFailure
        else if fault = some 2 then
          .err (afterFirstCommit now st req) .PersistenceFailure
        else
          let c := commitPhase now st req pairs
          .ok c.1 c.2

/-- Outcome of a product update. -/
inductive UpdateResult where
  | ok (st : State) (p : Product)
  | err (st : State)
  deriving DecidableEq, Repr

/-- `update_product` (src/main.py lines 78-98): resolve the product, 404
if absent, otherwise overwrite every payload field of that row (the key
is untouched) and commit. -/
def update_product (st : State) (product_id : Int) (data : ProductCreate) : UpdateResult :=
  match getProduct st product_id with
  | none => .err st
  | some p0 =>
    let p : Product :=
      { p0 with
        name := data.name
        sku := data.sku
        price := data.price
        current_stock := data.current_stock
        reorder_level := data.reorder_level }
    let st1 : State :=
      { st with
        products := st.products.map (fun q =>
          if q.id == product_id then
            { q with
              name := data.name
              sku := data.sku
              price := data.price
              current_stock := data.current_stock
              reorder_level := data.reorder_level }
          else q) }
    .ok st1 p

/-- Sum of the quantities of the request items that reference product
`pid` (the cumulative requested quantity of §8 of the spec). -/
def requestedQty (items : List OrderItemCreate) (pid : Int) : Int :=
  (items.map (fun i => if i.product_id == pid then i.quantity else 0)).sum

/-- Sum of the quantities of the validated pairs whose product row has
key `pid`. -/
def pairsQty (pairs : List (Product × Int)) (pid : Int) : Int :=
  (pairs.map (fun pq => if pq.1.id == pid then pq.2 else 0)).sum

/-- The stored price of product `pid` in state `st` (0 if absent; only
used where the product is known to exist). -/
def priceOf (st : State) (pid : Int) : ℚ :=
  ((getProduct st pid).map Product.price).getD 0

/-- A product with its stock field blanked out; two product lists agree
up to stock exactly when their `clearStock` images are equal. -/
def clearStock (p : Product) : Product :=
  { p with current_stock := 0 }

/-- Written from the spec's words (§4.1 input constraints, in the order
of the algorithm's step 3): the first validation failure among the items,
scanned in caller order — quantity positivity, then product resolution,
then stock sufficiency, each item checked against the untouched store. -/
def specFirstItemError (st : State) : List OrderItemCreate → Option OrderError
  | [] => none
  | i :: rest =>
    if i.quantity ≤ 0 then
      some .InvalidQuantity
    else
      match getProduct st i.product_id with
      | none => some (.ProductNotFound i.product_id)
      | some p =>
        if p.current_stock < i.quantity then
          some (.InsufficientStock p.id p.current_stock i.quantity)
        else
          specFirstItemError st rest

/-- Written from the spec's words (§4.1 algorithm steps 1-3): the error
of the first failing precondition check — customer resolution, then
non-emptiness of the item list, then the per-item checks in caller
order — or `none` when every check passes. -/
def specFirstError (st : State) (req : OrderCreate) : Option OrderError :=
  if getCustomer st req.customer_id = none then
    some .CustomerNotFound
  else if req.items = [] then
    some .EmptyOrder
  else
    specFirstItemError st req.items

/-! Concrete data used by the claim witnesses and counterexamples:
one customer, one product with stock 5 and price 5/2. -/

/-- Demo product: key 1, stock 5, price 3. -/
def pDemo : Product :=
  { id := 1, name := "Widget", sku := "W-1", price := 3, current_stock := 5, reorder_level := 0 }

/-- Demo customer: key 1. -/
def cDemo : Customer :=
  { id := 1, name := "Ada", email := "ada@example.com", address := none }

/-- Demo state: the demo product and customer, empty ledgers. -/
def stDemo : State :=
  { products := [pDemo], customers := [cDemo], orders := [], orderItems := []
    nextOrderId := 1, nextOrderItemId := 1 }

/-- Two line items of quantity 3 for the same product of stock 5:
cumulative requested quantity 6 exceeds the stock. -/
def reqDup : OrderCreate :=
  { customer_id := 1, items := [{ product_id := 1, quantity := 3 }, { product_id := 1, quantity := 3 }] }

/-- A plainly valid request: one item, quantity 2, product of stock 5. -/
def reqOk : OrderCreate :=
  { customer_id := 1, items := [{ product_id := 1, quantity := 2 }] }

/-- A request whose single item exceeds the available stock. -/
def reqTooMany : OrderCreate :=
  { customer_id := 1, items := [{ product_id := 1, quantity := 99 }] }

/-! ### Characterization of the mutation pass -/

theorem pairsQty_cons (pq : Product × Int) (rest : List (Product × Int)) (pid : Int) :
    pairsQty (pq :: rest) pid = (if pq.1.id == pid then pq.2 else 0) + pairsQty rest pid := by
  simp [pairsQty]

theorem applyItems_customers (oid : Int) :
    ∀ (pairs : List (Product × Int)) (st : State),
      (applyItems st oid pairs).1.customers = st.customers := by
  intro pairs
  induction pairs with
  | nil => intro st; rfl
  | cons pq rest ih =>
    intro st
    obtain ⟨product, qty⟩ := pq
    simp only [applyItems]
    rw [ih]

theorem applyItems_orders (oid : Int) :
    ∀ (pairs : List (Product × Int)) (st : State),
      (applyItems st oid pairs).1.orders = st.orders := by
  intro pairs
  induction pairs with
  | nil => intro st; rfl
  | cons pq rest ih =>
    intro st
    obtain ⟨product, qty⟩ := pq
    simp only [applyItems]
    rw [ih]

theorem applyItems_nextOrderId (oid : Int) :
    ∀ (pairs : List (Product × Int)) (st : State),
      (applyItems st oid pairs).1.nextOrderId = st.nextOrderId := by
  intro pairs
  induction pairs with
  | nil => intro st; rfl
  | cons pq rest ih =>
    intro st
    obtain ⟨product, qty⟩ := pq
    simp only [applyItems]
    rw [ih]

theorem applyItems_orderItems (oid : Int) :
    ∀ (pairs : List (Product × Int)) (st : State),
      (applyItems st oid pairs).1.orderItems = st.orderItems ++ (applyItems st oid pairs).2 := by
  intro pairs
  induction pairs with
  | nil => intro st; simp [applyItems]
  | cons pq rest ih =>
    intro st
    obtain ⟨product, qty⟩ := pq
    simp only [applyItems]
    rw [ih]
    simp

theorem applyItems_products (oid : Int) :
    ∀ (pairs : List (Product × Int)) (st : State),
      (applyItems st oid pairs).1.products =
        st.products.map
          (fun p => { p with current_stock := p.current_stock - pairsQty pairs p.id }) := by
  intro pairs
  induction pairs with
  | nil =>
    intro st
    simp [applyItems, pairsQty]
  | cons pq rest ih =>
    intro st
    obtain ⟨product, qty⟩ := pq
    simp only [applyItems]
    rw [ih]
    simp only [decrementStock, List.map_map]
    apply List.map_congr_left
    intro p _
    by_cases hp : p.id = product.id
    · simp only [Function.comp_apply, hp, beq_self_eq_true, if_true, pairsQty_cons]
      cases p
      simp_all [Product.mk.injEq, pairsQty]
      omega
    · have hpb : (p.id == product.id) = false := by simp [hp]
      have hpb2 : (product.id == p.id) = false := by
        simp [beq_iff_eq]; exact fun h => hp h.symm
      simp only [Function.comp_apply, hpb, if_false, pairsQty_cons, hpb2]
      simp

theorem applyItems_snd_product_id (oid : Int) :
    ∀ (pairs : List (Product × Int)) (st : State),
      ((applyItems st oid pairs).2).map OrderItem.product_id = pairs.map (fun pq => pq.1.id) := by
  intro pairs
  induction pairs with
  | nil => intro st; rfl
  | cons pq rest ih =>
    intro st
    obtain ⟨product, qty⟩ := pq
    simp only [applyItems, List.map_cons]
    rw [ih]

theorem applyItems_snd_quantity (oid : Int) :
    ∀ (pairs : List (Product × Int)) (st : State),
      ((applyItems st oid pairs).2).map OrderItem.quantity = pairs.map (fun pq => pq.2) := by
  intro pairs
  induction pairs with
  | nil => intro st; rfl
  | cons pq rest ih =>
    intro st
    obtain ⟨product, qty⟩ := pq
    simp only [applyItems, List.map_cons]
    rw [ih]

theorem applyItems_snd_unit_price (oid : Int) :
    ∀ (pairs : List (Product × Int)) (st : State),
      ((applyItems st oid pairs).2).map OrderItem.unit_price = pairs.map (fun pq => pq.1.price) := by
  intro pairs
  induction pairs with
  | nil => intro st; rfl
  | cons pq rest ih =>
    intro st
    obtain ⟨product, qty⟩ := pq
    simp only [applyItems, List.map_cons]
    rw [ih]

theorem applyItems_snd_order_id (oid : Int) :
    ∀ (pairs : List (Product × Int)) (st : State),
      ((applyItems st oid pairs).2).map OrderItem.order_id = pairs.map (fun _ => oid) := by
  intro pairs
  induction pairs with
  | nil => intro st; rfl
  | cons pq rest ih =>
    intro st
    obtain ⟨product, qty⟩ := pq
    simp only [applyItems, List.map_cons]
    rw [ih]

/-! ### Characterization of the validation pass -/

theorem getProduct_id {st : State} {pid : Int} {p : Product}
    (h : getProduct st pid = some p) : p.id = pid := by
  simp only [getProduct] at h
  have := List.find?_some h
  simpa [beq_iff_eq] using this

theorem requestedQty_cons (i : OrderItemCreate) (rest : List OrderItemCreate) (pid : Int) :
    requestedQty (i :: rest) pid
      = (if i.product_id == pid then i.quantity else 0) + requestedQty rest pid := by
  simp [requestedQty]

/-- When the validation pass accepts, the collected (product, qty) pairs
correspond 1-1, in order, to the request items: same product keys, same
quantities, prices read from the untouched store, and the same per-key
cumulative quantities. -/
theorem validateItems_ok {st : State} :
    ∀ {items : List OrderItemCreate} {pairs : List (Product × Int)},
      validateItems st items = .ok pairs →
      pairs.map (fun pq => pq.1.id) = items.map OrderItemCreate.product_id ∧
      pairs.map (fun pq => pq.2) = items.map OrderItemCreate.quantity ∧
      pairs.map (fun pq => pq.1.price) = items.map (fun i => priceOf st i.product_id) ∧
      (∀ pid : Int, pairsQty pairs pid = requestedQty items pid) := by
  intro items
  induction items with
  | nil =>
    intro pairs h
    simp only [validateItems] at h
    cases h
    simp [pairsQty, requestedQty]
  | cons i rest ih =>
    intro pairs h
    simp only [validateItems] at h
    split at h
    · simp at h
    · split at h
      · simp at h
      · rename_i product heq
        split at h
        · simp at h
        · split at h
          · simp at h
          · rename_i pairs0 heq2
            cases h
            obtain ⟨h1, h2, h3, h4⟩ := ih heq2
            have hid : product.id = i.product_id := getProduct_id heq
            refine ⟨?_, ?_, ?_, ?_⟩
            · simp [h1, hid]
            · simp [h2]
            · simp [h3, priceOf, heq]
            · intro pid
              rw [pairsQty_cons, requestedQty_cons, hid, h4 pid]

/-- Success inversion for `create_order`: a successful placement means
validation accepted some pair list and the result is exactly the commit
phase run on it. -/
theorem create_order_ok_inv {fault : Option Nat} {now : Nat} {st : State} {req : OrderCreate}
    {st' : State} {view : OrderRead}
    (h : create_order fault now st req = .ok st' view) :
    ∃ pairs, validateItems st req.items = .ok pairs ∧
      (st', view) = commitPhase now st req pairs := by
  unfold create_order at h
  split at h
  · simp at h
  · split at h
    · simp at h
    · split at h
      · simp at h
      · rename_i pairs heq
        split at h
        · simp at h
        · split at h
          · simp at h
          · injection h with ha hb
            exact ⟨pairs, heq, by rw [← ha, ← hb]⟩

/-! ### Characterization of the commit phase -/

theorem commitPhase_customers (now : Nat) (st : State) (req : OrderCreate)
    (pairs : List (Product × Int)) :
    (commitPhase now st req pairs).1.customers = st.customers := by
  simp [commitPhase, applyItems_customers, afterFirstCommit]

theorem commitPhase_orders (now : Nat) (st : State) (req : OrderCreate)
    (pairs : List (Product × Int)) :
    (commitPhase now st req pairs).1.orders = st.orders ++ [newOrder now st req] := by
  simp [commitPhase, applyItems_orders, afterFirstCommit]

theorem commitPhase_orderItems (now : Nat) (st : State) (req : OrderCreate)
    (pairs : List (Product × Int)) :
    (commitPhase now st req pairs).1.orderItems
      = st.orderItems
        ++ (applyItems (afterFirstCommit now st req) (newOrder now st req).id pairs).2 := by
  simp [commitPhase, applyItems_orderItems, afterFirstCommit]

theorem commitPhase_products (now : Nat) (st : State) (req : OrderCreate)
    (pairs : List (Product × Int)) :
    (commitPhase now st req pairs).1.products
      = st.products.map
          (fun p => { p with current_stock := p.current_stock - pairsQty pairs p.id }) := by
  simp [commitPhase, applyItems_products, afterFirstCommit]

theorem applyItems_snd_mem_order_id (oid : Int) :
    ∀ (pairs : List (Product × Int)) (st : State),
      ∀ oi ∈ (applyItems st oid pairs).2, oi.order_id = oid := by
  intro pairs
  induction pairs with
  | nil => intro st oi hoi; simp [applyItems] at hoi
  | cons pq rest ih =>
    intro st oi hoi
    obtain ⟨product, qty⟩ := pq
    simp only [applyItems, List.mem_cons] at hoi
    rcases hoi with h | h
    · subst h; rfl
    · exact ih _ oi h

/-- With no pre-existing OrderItem row carrying the fresh order key, the
re-selected response items are exactly the rows created by this
placement, in creation order. -/
theorem commitPhase_view_items (now : Nat) (st : State) (req : OrderCreate)
    (pairs : List (Product × Int))
    (hWf : ∀ oi ∈ st.orderItems, oi.order_id ≠ st.nextOrderId) :
    (commitPhase now st req pairs).2.items
      = ((applyItems (afterFirstCommit now st req) (newOrder now st req).id pairs).2).map
          orderItemRead := by
  simp only [commitPhase]
  rw [applyItems_orderItems]
  rw [show (afterFirstCommit now st req).orderItems = st.orderItems from rfl]
  rw [List.filter_append]
  have h1 : st.orderItems.filter
      (fun oi => oi.order_id == (newOrder now st req).id) = [] := by
    rw [List.filter_eq_nil_iff]
    intro oi hoi
    simpa [beq_iff_eq, newOrder] using hWf oi hoi
  have h2 : ((applyItems (afterFirstCommit now st req) (newOrder now st req).id pairs).2).filter
      (fun oi => oi.order_id == (newOrder now st req).id)
      = (applyItems (afterFirstCommit now st req) (newOrder now st req).id pairs).2 := by
    rw [List.filter_eq_self]
    intro oi hoi
    simp [beq_iff_eq, applyItems_snd_mem_order_id _ _ _ oi hoi]
  rw [h1, h2]
  rfl

theorem commitPhase_view_id (now : Nat) (st : State) (req : OrderCreate)
    (pairs : List (Product × Int)) :
    (commitPhase now st req pairs).2.id = st.nextOrderId := rfl

theorem commitPhase_view_customer (now : Nat) (st : State) (req : OrderCreate)
    (pairs : List (Product × Int)) :
    (commitPhase now st req pairs).2.customer_id = req.customer_id := rfl

theorem commitPhase_view_status (now : Nat) (st : State) (req : OrderCreate)
    (pairs : List (Product × Int)) :
    (commitPhase now st req pairs).2.status = "PENDING" := rfl

theorem commitPhase_view_created_at (now : Nat) (st : State) (req : OrderCreate)
    (pairs : List (Product × Int)) :
    (commitPhase now st req pairs).2.created_at = now := rfl

/-- `getProduct` after a successful placement: every product row is the
old row with its stock lowered by the cumulative requested quantity of
the items referencing it. -/
theorem getProduct_after_ok {fault : Option Nat} {now : Nat} {st : State} {req : OrderCreate}
    {st' : State} {view : OrderRead}
    (h : create_order fault now st req = .ok st' view) (pid : Int) :
    getProduct st' pid
      = (getProduct st pid).map
          (fun p => { p with current_stock := p.current_stock - requestedQty req.items pid }) := by
  obtain ⟨pairs, hval, hcv⟩ := create_order_ok_inv h
  have hst' : st' = (commitPhase now st req pairs).1 := by
    have := congrArg Prod.fst hcv
    simpa using this
  obtain ⟨-, -, -, hqty⟩ := validateItems_ok hval
  subst hst'
  show ((commitPhase now st req pairs).1.products).find? (fun p => p.id == pid)
      = (getProduct st pid).map _
  rw [commitPhase_products]
  rw [List.find?_map]
  have hcomp : ((fun p : Product => p.id == pid)
      ∘ (fun p => { p with current_stock := p.current_stock - pairsQty pairs p.id }))
      = fun p : Product => p.id == pid := rfl
  rw [hcomp]
  show ((getProduct st pid).map _) = _
  cases hfind : getProduct st pid with
  | none => rfl
  | some p0 =>
    have hp0 : p0.id = pid := getProduct_id hfind
    simp [Option.map, hp0, hqty pid]

/-- The cumulative requested quantity of a product no item references
is zero. -/
theorem requestedQty_of_not_mem {items : List OrderItemCreate} {pid : Int}
    (hno : ∀ i ∈ items, i.product_id ≠ pid) : requestedQty items pid = 0 := by
  unfold requestedQty
  apply List.sum_eq_zero
  intro x hx
  obtain ⟨i, hi, rfl⟩ := List.mem_map.mp hx
  simp [beq_iff_eq, hno i hi]

/-- A product no request item references keeps its row untouched by a
successful placement. -/
theorem getProduct_after_ok_unreferenced {fault : Option Nat} {now : Nat} {st : State}
    {req : OrderCreate} {st' : State} {view : OrderRead}
    (h : create_order fault now st req = .ok st' view) (pid : Int)
    (hno : ∀ i ∈ req.items, i.product_id ≠ pid) :
    getProduct st' pid = getProduct st pid := by
  rw [getProduct_after_ok h pid, requestedQty_of_not_mem hno]
  cases getProduct st pid with
  | none => rfl
  | some p => simp

/-- The validation pass of the code reports exactly the first per-item
failure that the spec's constraint list describes. -/
theorem validate_vs_specFirstItemError (st : State) :
    ∀ items : List OrderItemCreate,
      specFirstItemError st items
        = (match validateItems st items with
           | .error e => some e
           | .ok _ => none) := by
  intro items
  induction items with
  | nil => rfl
  | cons i rest ih =>
    by_cases hq : i.quantity ≤ 0
    · simp [specFirstItemError, validateItems, hq]
    · cases hg : getProduct st i.product_id with
      | none => simp [specFirstItemError, validateItems, hq, hg]
      | some p =>
        by_cases hs : p.current_stock < i.quantity
        · simp [specFirstItemError, validateItems, hq, hg, hs]
        · cases hv : validateItems st rest with
          | error e => simp [specFirstItemError, validateItems, hq, hg, hs, hv, ih]
          | ok pairs => simp [specFirstItemError, validateItems, hq, hg, hs, hv, ih]

/-! ### Accessors and concrete runs used by the witnesses -/

/-- The response view of a placement result (dummy on failure; only ever
used at results known to be successful). -/
def viewOf : CreateResult → OrderRead
  | .ok _ v => v
  | .err _ _ => { id := 0, customer_id := 0, status := "", created_at := 0, items := [] }

/-- The state after a product update. -/
def updState : UpdateResult → State
  | .ok st _ => st
  | .err st => st

/-- The returned product of a product update (dummy on failure). -/
def updProduct : UpdateResult → Product
  | .ok _ p => p
  | .err _ => { id := 0, name := "", sku := "", price := 0, current_stock := 0, reorder_level := 0 }

/-- The failure-free run of the valid demo request. -/
def runOk : CreateResult := create_order none 0 stDemo reqOk

/-- A later price change to the demo product, applied after `runOk`. -/
def dataNew : ProductCreate :=
  { name := "Widget", sku := "W-1", price := 9, current_stock := 50, reorder_level := 1 }

/-- The product update run on top of the successful demo placement. -/
def runUpd : UpdateResult := update_product (resultState runOk) 1 dataNew

/-! ### The claims -/

/-- C1 (code bug): the claim — and the spec — require two line items
referencing the same product to be validated against their cumulative
requested quantity, so with stock 5 and two items of quantity 3 the
placement must fail with InsufficientStock.  The code validates each
item independently against the untouched stock (src/main.py lines
196-211), so on exactly that input the placement reports no error at
all: the cumulative quantity is 6, the stock is 5, and yet placement
succeeds. -/
theorem duplicate_items_validated_independently :
    requestedQty reqDup.items 1 = 6 ∧
    (getProduct stDemo 1).map Product.current_stock = some 5 ∧
    resultError (create_order none 0 stDemo reqDup) = none := by
  decide

/-- C2 (code bug): the claim — and the spec — require the Order, its
OrderItems and the stock decrements to commit as one atomic unit, with
no partial state visible on failure.  The code commits twice
(src/main.py lines 216 and 236): when the store fails at the second
commit, the Order row from the first commit stays visible with no
OrderItems and no stock decrement. -/
theorem second_commit_failure_partial_state :
    resultError (create_order (some 2) 0 stDemo reqOk) = some .PersistenceFailure ∧
    (resultState (create_order (some 2) 0 stDemo reqOk)).orders
      = [{ id := 1, customer_id := 1, status := "PENDING", created_at := 0 }] ∧
    (resultState (create_order (some 2) 0 stDemo reqOk)).orderItems = [] ∧
    (resultState (create_order (some 2) 0 stDemo reqOk)).products = stDemo.products := by
  decide

/-- C3 (confirmed): every placement failure other than a persistence
failure — customer not found, empty item list, non-positive quantity,
missing product, insufficient stock, which are exactly the validation
failures of the taxonomy — leaves the entire state unchanged: no Order,
no OrderItem, no stock change. -/
theorem validation_failure_leaves_state_unchanged
    {fault : Option Nat} {now : Nat} {st : State} {req : OrderCreate} {st' : State}
    {e : OrderError}
    (h : create_order fault now st req = .err st' e)
    (he : e ≠ OrderError.PersistenceFailure) :
    st' = st := by
  unfold create_order at h
  split at h
  · cases h; rfl
  · split at h
    · cases h; rfl
    · split at h
      · cases h; rfl
      · split at h
        · cases h; exact absurd rfl he
        · split at h
          · cases h; exact absurd rfl he
          · simp at h

/-- Witness for C3: the demo request for 99 units of a product with
stock 5 fails and the state read back afterwards is the initial one. -/
theorem validation_failure_leaves_state_unchanged_witness :
    resultState (create_order none 0 stDemo reqTooMany) = stDemo :=
  @validation_failure_leaves_state_unchanged none 0 stDemo reqTooMany
    (resultState (create_order none 0 stDemo reqTooMany))
    (.InsufficientStock 1 5 99) (by decide) (by decide)

/-- C4 (code bug): the claim — and the spec's invariant — say a state
with all stocks non-negative can never be driven negative by order
placement.  On the duplicate-item demo input (stock 5, two items of 3)
the code commits the order and leaves the product's stock at -1. -/
theorem stock_can_go_negative :
    stDemo.products.map Product.current_stock = [5] ∧
    (resultState (create_order none 0 stDemo reqDup)).products.map Product.current_stock
      = [-1] := by
  decide

/-- C5 (confirmed): a successful placement lowers each product's stock
by exactly the cumulative requested quantity of the order's items
referencing it, and products referenced by no item keep their row
unchanged. -/
theorem successful_order_decrements_by_requested_sum
    {fault : Option Nat} {now : Nat} {st : State} {req : OrderCreate} {st' : State}
    {view : OrderRead}
    (h : create_order fault now st req = .ok st' view) :
    ∀ pid : Int,
      getProduct st' pid
        = (getProduct st pid).map
            (fun p => { p with current_stock := p.current_stock - requestedQty req.items pid }) ∧
      ((∀ i ∈ req.items, i.product_id ≠ pid) → getProduct st' pid = getProduct st pid) := by
  intro pid
  exact ⟨getProduct_after_ok h pid, getProduct_after_ok_unreferenced h pid⟩

/-- Witness for C5: placing the valid demo order (quantity 2) rewrites
product 1 from stock 5 to stock 3, matching the requested sum. -/
theorem successful_order_decrements_by_requested_sum_witness :
    getProduct (resultState runOk) 1
      = (getProduct stDemo 1).map
          (fun p => { p with current_stock := p.current_stock - requestedQty reqOk.items 1 }) :=
  ((@successful_order_decrements_by_requested_sum none 0 stDemo reqOk
      (resultState runOk) (viewOf runOk) (by decide)) 1).1

/-- C6 (confirmed): each item of a successful placement's view carries
as unit_price the referenced product's price as stored at placement
time, and a later product update (which rewrites only the product
table) leaves every previously created OrderItem — hence its
unit_price — unchanged. -/
theorem unit_price_snapshot_and_immutable
    {fault : Option Nat} {now : Nat} {st : State} {req : OrderCreate} {st' : State}
    {view : OrderRead} {pid : Int} {data : ProductCreate} {st'' : State} {p : Product}
    (hWf : ∀ oi ∈ st.orderItems, oi.order_id ≠ st.nextOrderId)
    (h : create_order fault now st req = .ok st' view)
    (h2 : update_product st' pid data = .ok st'' p) :
    view.items.map OrderItemRead.unit_price = req.items.map (fun i => priceOf st i.product_id) ∧
    st''.orderItems = st'.orderItems := by
  constructor
  · obtain ⟨pairs, hval, hcv⟩ := create_order_ok_inv h
    have hview : view = (commitPhase now st req pairs).2 := by
      have := congrArg Prod.snd hcv
      simpa using this
    subst hview
    rw [commitPhase_view_items now st req pairs hWf, List.map_map]
    have hcomp : (OrderItemRead.unit_price ∘ orderItemRead) = OrderItem.unit_price := rfl
    rw [hcomp, applyItems_snd_unit_price]
    exact (validateItems_ok hval).2.2.1
  · unfold update_product at h2
    split at h2
    · simp at h2
    · injection h2 with ha hb
      rw [← ha]

/-- Witness for C6: the demo placement snapshots price 3 into its item,
and a later price update to 9 leaves the stored OrderItems untouched. -/
theorem unit_price_snapshot_and_immutable_witness :
    (viewOf runOk).items.map OrderItemRead.unit_price
        = reqOk.items.map (fun i => priceOf stDemo i.product_id) ∧
    (updState runUpd).orderItems = (resultState runOk).orderItems :=
  @unit_price_snapshot_and_immutable none 0 stDemo reqOk (resultState runOk) (viewOf runOk)
    1 dataNew (updState runUpd) (updProduct runUpd)
    (by decide) (by decide) (by decide)

/-- C7 (confirmed): in a failure-free run, the error reported by order
placement is exactly the one of the first failing check, in the fixed
order the spec gives: customer existence, then non-emptiness, then per
item in caller order quantity positivity, product existence, and stock
sufficiency — and no error at all when every check passes. -/
theorem error_checks_in_fixed_order (now : Nat) (st : State) (req : OrderCreate) :
    resultError (create_order none now st req) = specFirstError st req := by
  unfold create_order specFirstError
  cases hc : getCustomer st req.customer_id with
  | none => simp [resultError]
  | some c =>
    by_cases he : req.items.length = 0
    · have hnil : req.items = [] := List.length_eq_zero.mp he
      simp [he, hnil, resultError]
    · have hne : req.items ≠ [] := fun hh => he (by simp [hh])
      cases hv : validateItems st req.items with
      | error e =>
        simp [he, hne, hv, resultError, validate_vs_specFirstItemError st req.items]
      | ok pairs =>
        simp [he, hne, hv, resultError, validate_vs_specFirstItemError st req.items]

/-- C8 (confirmed): the view returned by a successful placement carries
the new order's identity (the fresh key), the customer reference,
status PENDING, the creation timestamp, and one item per requested item
in the caller's order, each carrying the product reference, the
requested quantity, the snapshotted unit price, and the new order's
key. -/
theorem successful_order_materialized_view
    {fault : Option Nat} {now : Nat} {st : State} {req : OrderCreate} {st' : State}
    {view : OrderRead}
    (hWf : ∀ oi ∈ st.orderItems, oi.order_id ≠ st.nextOrderId)
    (h : create_order fault now st req = .ok st' view) :
    view.id = st.nextOrderId ∧
    view.customer_id = req.customer_id ∧
    view.status = "PENDING" ∧
    view.created_at = now ∧
    view.items.length = req.items.length ∧
    view.items.map OrderItemRead.product_id = req.items.map OrderItemCreate.product_id ∧
    view.items.map OrderItemRead.quantity = req.items.map OrderItemCreate.quantity ∧
    view.items.map OrderItemRead.unit_price = req.items.map (fun i => priceOf st i.product_id) ∧
    view.items.map OrderItemRead.order_id = req.items.map (fun _ => st.nextOrderId) := by
  obtain ⟨pairs, hval, hcv⟩ := create_order_ok_inv h
  have hview : view = (commitPhase now st req pairs).2 := by
    have := congrArg Prod.snd hcv
    simpa using this
  subst hview
  obtain ⟨h1, h2, h3, -⟩ := validateItems_ok hval
  have hitems := commitPhase_view_items now st req pairs hWf
  have hpid : ((commitPhase now st req pairs).2.items).map OrderItemRead.product_id
      = req.items.map OrderItemCreate.product_id := by
    rw [hitems, List.map_map]
    have hcomp : (OrderItemRead.product_id ∘ orderItemRead) = OrderItem.product_id := rfl
    rw [hcomp, applyItems_snd_product_id, h1]
  have hqty : ((commitPhase now st req pairs).2.items).map OrderItemRead.quantity
      = req.items.map OrderItemCreate.quantity := by
    rw [hitems, List.map_map]
    have hcomp : (OrderItemRead.quantity ∘ orderItemRead) = OrderItem.quantity := rfl
    rw [hcomp, applyItems_snd_quantity, h2]
  have hprice : ((commitPhase now st req pairs).2.items).map OrderItemRead.unit_price
      = req.items.map (fun i => priceOf st i.product_id) := by
    rw [hitems, List.map_map]
    have hcomp : (OrderItemRead.unit_price ∘ orderItemRead) = OrderItem.unit_price := rfl
    rw [hcomp, applyItems_snd_unit_price, h3]
  have hlenpairs : pairs.length = req.items.length := by
    have := congrArg List.length h1
    simpa using this
  have hoid : ((commitPhase now st req pairs).2.items).map OrderItemRead.order_id
      = req.items.map (fun _ => st.nextOrderId) := by
    rw [hitems, List.map_map]
    have hcomp : (OrderItemRead.order_id ∘ orderItemRead) = OrderItem.order_id := rfl
    rw [hcomp, applyItems_snd_order_id, List.map_const', List.map_const', hlenpairs]
    rfl
  have hlen : ((commitPhase now st req pairs).2.items).length = req.items.length := by
    have := congrArg List.length hpid
    simpa using this
  exact ⟨rfl, rfl, rfl, rfl, hlen, hpid, hqty, hprice, hoid⟩

/-- Witness for C8: the demo placement's view carries the fresh order
key 1. -/
theorem successful_order_materialized_view_witness :
    (viewOf runOk).id = stDemo.nextOrderId :=
  (@successful_order_materialized_view none 0 stDemo reqOk (resultState runOk) (viewOf runOk)
    (by decide) (by decide)).1

/-- C10 (confirmed): a successful placement only appends the new Order
and its OrderItems and only rewrites the stock counters of referenced
products: customers are untouched, pre-existing orders and order items
survive as a prefix, every product keeps all its non-stock fields, and
a product referenced by no item keeps its row verbatim. -/
theorem create_order_frame_effect
    {fault : Option Nat} {now : Nat} {st : State} {req : OrderCreate} {st' : State}
    {view : OrderRead}
    (h : create_order fault now st req = .ok st' view) :
    st'.customers = st.customers ∧
    st'.orders.take st.orders.length = st.orders ∧
    st'.orderItems.take st.orderItems.length = st.orderItems ∧
    st'.products.map clearStock = st.products.map clearStock ∧
    (∀ pid : Int, (∀ i ∈ req.items, i.product_id ≠ pid) →
      getProduct st' pid = getProduct st pid) := by
  obtain ⟨pairs, hval, hcv⟩ := create_order_ok_inv h
  have hst' : st' = (commitPhase now st req pairs).1 := by
    have := congrArg Prod.fst hcv
    simpa using this
  subst hst'
  refine ⟨commitPhase_customers now st req pairs, ?_, ?_, ?_, ?_⟩
  · rw [commitPhase_orders]
    exact List.take_left st.orders _
  · rw [commitPhase_orderItems]
    exact List.take_left st.orderItems _
  · rw [commitPhase_products, List.map_map]
    have hcomp : (clearStock ∘ fun p : Product =>
        { p with current_stock := p.current_stock - pairsQty pairs p.id }) = clearStock := rfl
    rw [hcomp]
  · intro pid hno
    exact getProduct_after_ok_unreferenced h pid hno

/-- Witness for C10: the demo placement leaves the customer table
unchanged. -/
theorem create_order_frame_effect_witness :
    (resultState runOk).customers = stDemo.customers :=
  (@create_order_frame_effect none 0 stDemo reqOk (resultState runOk) (viewOf runOk)
    (by decide)).1

end AssetSystem
